import Mathlib

/-!
Shallow embedding of the library reservation subsystem:
the `Reservation` entity (domain/entities/Reservation.ts), the in-memory
reservation repository (InMemoryReservationRepository.ts), the
`ReservationQueueService` (domain/services/ReservationQueueService.ts),
the `EventBus` (infrastructure/events/EventBus.ts) and the
`CancelReservationUseCase` (application/usecases/CancelReservationUseCase.ts).

Timestamps are modelled as natural numbers (milliseconds since epoch, the
value of `Date.getTime()`); identifiers (`ReservationId`, `UserId`, `BookId`)
are modelled as naturals compared by value, mirroring the value objects'
`equals`.  A throwing TypeScript constructor or method is modelled as a
function into `Except String`.
-/

namespace LibRes

/-- `ReservationStatus` enum from Reservation.ts. -/
inductive ReservationStatus where
  | active
  | ready
  | fulfilled
  | expired
  | cancelled
deriving DecidableEq, Repr

/-- The `Reservation` entity's fields (Reservation.ts).  `readyAt` and
`expiresAt` are nullable in the source, hence `Option`. -/
structure Reservation where
  id : Nat
  userId : Nat
  bookId : Nat
  status : ReservationStatus
  createdAt : Nat
  readyAt : Option Nat
  expiresAt : Option Nat
deriving DecidableEq, Repr

namespace Reservation

/-- `Reservation.HOLD_PERIOD_DAYS = 3` from the source. -/
def HOLD_PERIOD_DAYS : Nat := 3

/-- Milliseconds in one day. -/
def msPerDay : Nat := 24 * 60 * 60 * 1000

/-- The hold period (3 days) in milliseconds: what
`expiresAt.setDate(expiresAt.getDate() + HOLD_PERIOD_DAYS)` adds to the
current time. -/
def holdPeriodMs : Nat := HOLD_PERIOD_DAYS * msPerDay

/-- `validate()` from Reservation.ts: throws if a READY reservation lacks
`readyAt` or `expiresAt`, or if `expiresAt` is set and `expiresAt <= createdAt`. -/
def validate (r : Reservation) : Except String Unit :=
  if r.status = .ready && (r.readyAt.isNone || r.expiresAt.isNone) then
    .error "READY reservations must have readyAt and expiresAt"
  else if r.expiresAt.any (fun e => e ≤ r.createdAt) then
    .error "Expiration date must be after creation date"
  else
    .ok ()

/-- The private constructor of `Reservation`: assembles the record and runs
`validate()`, propagating its error. -/
def construct (id userId bookId : Nat) (status : ReservationStatus)
    (createdAt : Nat) (readyAt expiresAt : Option Nat) :
    Except String Reservation :=
  let r : Reservation := ⟨id, userId, bookId, status, createdAt, readyAt, expiresAt⟩
  match validate r with
  | .ok _ => .ok r
  | .error e => .error e

/-- `Reservation.create(userId, bookId)`: fresh ACTIVE reservation with
`createdAt = now` and no ready/expiration timestamps.  The generated id and
the current time are explicit parameters of the embedding. -/
def create (id userId bookId now : Nat) : Except String Reservation :=
  construct id userId bookId .active now none none

/-- `Reservation.restore(...)`: rebuilds a reservation from persistence via
the validating constructor. -/
def restore (id userId bookId : Nat) (status : ReservationStatus)
    (createdAt : Nat) (readyAt expiresAt : Option Nat) :
    Except String Reservation :=
  construct id userId bookId status createdAt readyAt expiresAt

/-- `markAsReady()`: requires ACTIVE, sets READY with `readyAt = now` and
`expiresAt = now + 3 days`. -/
def markAsReady (r : Reservation) (now : Nat) : Except String Reservation :=
  if r.status ≠ .active then
    .error "Only active reservations can be marked as ready"
  else
    construct r.id r.userId r.bookId .ready r.createdAt (some now)
      (some (now + holdPeriodMs))

/-- `isExpired()`: true iff status is READY, `expiresAt` is set and
`Date.now() > expiresAt`. -/
def isExpired (r : Reservation) (now : Nat) : Bool :=
  match r.status, r.expiresAt with
  | .ready, some e => now > e
  | _, _ => false

/-- `fulfill()`: requires READY and not expired; produces a FULFILLED
snapshot. -/
def fulfill (r : Reservation) (now : Nat) : Except String Reservation :=
  if r.status ≠ .ready then
    .error "Only ready reservations can be fulfilled"
  else if r.isExpired now then
    .error "Cannot fulfill expired reservation"
  else
    construct r.id r.userId r.bookId .fulfilled r.createdAt r.readyAt r.expiresAt

/-- `expire()`: requires READY; produces an EXPIRED snapshot. -/
def expire (r : Reservation) : Except String Reservation :=
  if r.status ≠ .ready then
    .error "Only ready reservations can expire"
  else
    construct r.id r.userId r.bookId .expired r.createdAt r.readyAt r.expiresAt

/-- `cancel()`: fails from FULFILLED or EXPIRED; otherwise produces a
CANCELLED snapshot. -/
def cancel (r : Reservation) : Except String Reservation :=
  if r.status = .fulfilled then
    .error "Cannot cancel fulfilled reservation"
  else if r.status = .expired then
    .error "Cannot cancel expired reservation"
  else
    construct r.id r.userId r.bookId .cancelled r.createdAt r.readyAt r.expiresAt

/-- The READY invariant stated by the spec: READY implies `readyAt` and
`expiresAt` are set, and `expiresAt`, when set, is strictly after
`createdAt`. -/
def readyInvariant (r : Reservation) : Bool :=
  (r.status ≠ .ready || (r.readyAt.isSome && r.expiresAt.isSome)) &&
  r.expiresAt.all (fun e => r.createdAt < e)

end Reservation

/-- The reservation store: the insertion-ordered contents of the
`Map<string, Reservation>` backing `InMemoryReservationRepository`
(`Array.from(map.values())` enumerates values in key-insertion order, and
`set` on an existing key keeps its position). -/
abbrev Store := List Reservation

namespace Repo

/-- `save(reservation)`: `Map.set` keyed by the reservation id — replaces in
place when the id is present, appends otherwise. -/
def save (store : Store) (r : Reservation) : Store :=
  if store.any (fun x => x.id = r.id) then
    store.map (fun x => if x.id = r.id then r else x)
  else
    store ++ [r]

/-- `findById(id)`: `Map.get` keyed by id. -/
def findById (store : Store) (id : Nat) : Option Reservation :=
  store.find? (fun x => x.id = id)

/-- `findActiveByBook(bookId)`: all reservations for the book with ACTIVE
status, in store enumeration order. -/
def findActiveByBook (store : Store) (bookId : Nat) : Store :=
  store.filter (fun r => r.bookId = bookId && r.status = .active)

/-- `findByStatus(status)`. -/
def findByStatus (store : Store) (status : ReservationStatus) : Store :=
  store.filter (fun r => r.status = status)

/-- `findByUserAndBook(userId, bookId)`. -/
def findByUserAndBook (store : Store) (userId bookId : Nat) : Store :=
  store.filter (fun r => r.userId = userId && r.bookId = bookId)

end Repo

/-- The domain events the reservation subsystem publishes
(BookReservedEvent, ReservationReadyEvent, ReservationExpiredEvent,
BookAvailableEvent), reduced to their aggregate-identity payloads. -/
inductive DomainEvent where
  | bookReserved (reservationId userId bookId : Nat)
  | reservationReady (reservationId userId bookId expiresAtMs : Nat)
  | reservationExpired (reservationId userId bookId : Nat)
  | bookAvailable (bookId : Nat)
deriving DecidableEq, Repr

/-- The `ReservationResult` interface of ReservationQueueService.ts. -/
structure ReservationResult where
  success : Bool
  reservation : Option Reservation
  error : Option String
deriving DecidableEq, Repr

namespace Queue

open Reservation Repo

/-- The `hasActiveReservation` check inside `reserveBook`:
`findByUserAndBook(...)` followed by
`some(r => r.status === ACTIVE || r.status === READY)`. -/
def hasActiveFor (store : Store) (userId bookId : Nat) : Bool :=
  (findByUserAndBook store userId bookId).any
    (fun r => r.status = .active || r.status = .ready)

/-- `ReservationQueueService.reserveBook(user, book)`: duplicate check, then
create + save + publish BookReserved.  Returns the updated store, the
published events and the `ReservationResult`. -/
def reserveBook (store : Store) (userId bookId newId now : Nat) :
    Except String (Store × List DomainEvent × ReservationResult) :=
  if hasActiveFor store userId bookId then
    .ok (store, [],
      ⟨false, none, some "User already has active reservation for this book"⟩)
  else
    match Reservation.create newId userId bookId now with
    | .error e => .error e
    | .ok r =>
      .ok (save store r, [.bookReserved r.id r.userId r.bookId],
        ⟨true, some r, none⟩)

/-- The FIFO comparator of `getNextInQueue`:
`sort((a, b) => a.createdAt.getTime() - b.createdAt.getTime())` — a stable
ascending sort by creation timestamp, rendered as a stable insertion sort. -/
def sortByCreatedAt (l : List Reservation) : List Reservation :=
  l.insertionSort (fun a b => a.createdAt ≤ b.createdAt)

/-- `getNextInQueue(bookId)`: all ACTIVE reservations for the book, sorted
by `createdAt` ascending; first element, or none when none are waiting. -/
def getNextInQueue (store : Store) (bookId : Nat) : Option Reservation :=
  let active := findActiveByBook store bookId
  if active.isEmpty then none
  else (sortByCreatedAt active).head?

/-- `notifyNextInQueue(bookId)`: silent no-op when the queue is empty;
otherwise `markAsReady` the head, save it and publish ReservationReady with
its new expiration timestamp. -/
def notifyNextInQueue (store : Store) (bookId now : Nat) :
    Except String (Store × List DomainEvent) :=
  match getNextInQueue store bookId with
  | none => .ok (store, [])
  | some next =>
    match next.markAsReady now with
    | .error e => .error e
    | .ok ready =>
      .ok (save store ready,
        [.reservationReady ready.id ready.userId ready.bookId
          (ready.expiresAt.getD 0)])

/-- The `for (const reservation of readyReservations)` loop of
`processExpiredReservations`, threading the store, the published events and
the expired count over the READY snapshot taken before the loop. -/
def processExpiredLoop (now : Nat) :
    List Reservation → Store × List DomainEvent × Nat →
    Except String (Store × List DomainEvent × Nat)
  | [], acc => .ok acc
  | r :: rest, (store, events, count) =>
    if r.isExpired now then
      match r.expire with
      | .error e => .error e
      | .ok expired =>
        match notifyNextInQueue (save store expired) r.bookId now with
        | .error e => .error e
        | .ok (store2, events2) =>
          processExpiredLoop now rest
            (store2,
             events ++ [.reservationExpired r.id r.userId r.bookId] ++ events2,
             count + 1)
    else
      processExpiredLoop now rest (store, events, count)

/-- `processExpiredReservations()`: snapshot the READY reservations, expire
each one past its window, cascade via `notifyNextInQueue`, and return the
count of reservations expired in this sweep. -/
def processExpiredReservations (store : Store) (now : Nat) :
    Except String (Store × List DomainEvent × Nat) :=
  processExpiredLoop now (findByStatus store .ready) (store, [], 0)

/-- `cancelReservation(reservation)`: entity `cancel`, save, and cascade to
the next in queue when the cancelled reservation was READY. -/
def cancelReservation (store : Store) (r : Reservation) (now : Nat) :
    Except String (Store × List DomainEvent) :=
  match r.cancel with
  | .error e => .error e
  | .ok cancelled =>
    if r.status = .ready then
      notifyNextInQueue (save store cancelled) r.bookId now
    else
      .ok (save store cancelled, [])

end Queue

/-- The `CancelReservationOutput` interface. -/
structure CancelOutput where
  success : Bool
  message : String
deriving DecidableEq, Repr

namespace CancelUseCase

open Repo

/-- `CancelReservationUseCase.execute(input)`: look up the reservation,
reject FULFILLED / EXPIRED / already-CANCELLED, else delegate to
`cancelReservation`. -/
def execute (store : Store) (reservationId now : Nat) :
    Except String (Store × List DomainEvent × CancelOutput) :=
  match findById store reservationId with
  | none => .ok (store, [], ⟨false, "Reservation not found"⟩)
  | some r =>
    if r.status = .fulfilled then
      .ok (store, [], ⟨false, "Cannot cancel fulfilled reservation"⟩)
    else if r.status = .expired then
      .ok (store, [], ⟨false, "Cannot cancel expired reservation"⟩)
    else if r.status = .cancelled then
      .ok (store, [], ⟨false, "Reservation is already cancelled"⟩)
    else
      match Queue.cancelReservation store r now with
      | .error e => .error e
      | .ok (store2, events) =>
        .ok (store2, events, ⟨true, "Reservation cancelled successfully"⟩)

end CancelUseCase

/-- A bus event as the `EventBus` sees it (`IDomainEvent`): a discriminating
`eventType` tag plus a payload. -/
structure BusEvent (π : Type) where
  eventType : String
  payload : π
deriving DecidableEq, Repr

/-- An event handler: receives the event, reads and transforms an ambient
state `σ` (the handler's observable side effects), or fails with an error
(a rejected promise). -/
structure Handler (σ π : Type) where
  run : BusEvent π → σ → Except String σ

/-- The `EventBus`: a map from event-type tag to the list of handlers in
subscription order, modelled as an insertion-ordered association list. -/
structure EventBus (σ π : Type) where
  handlers : List (String × List (Handler σ π))

namespace EventBus

/-- `this.handlers.get(eventType) || []`. -/
def getHandlers (bus : EventBus σ π) (tag : String) : List (Handler σ π) :=
  match bus.handlers.lookup tag with
  | some hs => hs
  | none => []

/-- `subscribe(eventType, handler)`: create the entry when absent, then push
the handler at the end. -/
def subscribe (bus : EventBus σ π) (tag : String) (h : Handler σ π) :
    EventBus σ π :=
  if (bus.handlers.lookup tag).isSome then
    ⟨bus.handlers.map (fun p => if p.1 = tag then (p.1, p.2 ++ [h]) else p)⟩
  else
    ⟨bus.handlers ++ [(tag, [h])]⟩

/-- The `for (const handler of eventHandlers) { try ... catch ... }` loop of
`publish`: run each handler in order; a failure is caught, its message
logged (collected in the second component, mirroring `console.error`), and
the remaining handlers still run on the state the failed handler left
untouched. -/
def publishLoop : List (Handler σ π) → BusEvent π → σ → σ × List String
  | [], _, s => (s, [])
  | h :: rest, ev, s =>
    match h.run ev s with
    | .ok s2 =>
      publishLoop rest ev s2
    | .error e =>
      let (s2, errs) := publishLoop rest ev s
      (s2, e :: errs)

/-- `publish(event)`: dispatch to every handler registered for the event's
tag.  It returns the final state and the log of caught handler errors —
never an error of its own. -/
def publish (bus : EventBus σ π) (ev : BusEvent π) (s : σ) : σ × List String :=
  publishLoop (getHandlers bus ev.eventType) ev s

end EventBus

namespace EventBus

/-- Spec-side sequential dispatch: a left fold over the handler list in
subscription order in which each handler runs exactly once on the state its
predecessors produced; a failing handler leaves the state unchanged and its
error is appended to the log, and the fold continues with the remaining
handlers. -/
def runAllWithLog (hs : List (Handler σ π)) (ev : BusEvent π) (s : σ) :
    σ × List String :=
  hs.foldl
    (fun acc h =>
      match h.run ev acc.1 with
      | .ok s2 => (s2, acc.2)
      | .error e => (acc.1, acc.2 ++ [e]))
    (s, [])

theorem publishLoop_foldl (ev : BusEvent π) :
    ∀ (hs : List (Handler σ π)) (s : σ) (errs0 : List String),
      hs.foldl
        (fun acc h =>
          match h.run ev acc.1 with
          | .ok s2 => (s2, acc.2)
          | .error e => (acc.1, acc.2 ++ [e]))
        (s, errs0) =
      ((publishLoop hs ev s).1, errs0 ++ (publishLoop hs ev s).2) := by
  intro hs
  induction hs with
  | nil => intro s errs0; simp [publishLoop]
  | cons h t ih =>
    intro s errs0
    rw [List.foldl_cons]
    cases hr : h.run ev s with
    | ok s2 =>
      simp only [hr]
      rw [ih s2 errs0]
      simp [publishLoop, hr]
    | error e =>
      simp only [hr]
      rw [ih s (errs0 ++ [e])]
      simp [publishLoop, hr]

theorem lookup_map_bump (l : List (String × List (Handler σ π)))
    (tag : String) (h : Handler σ π) :
    (l.map (fun p => if p.1 = tag then (p.1, p.2 ++ [h]) else p)).lookup tag =
      (l.lookup tag).map (fun v => v ++ [h]) := by
  induction l with
  | nil => rfl
  | cons p t ih =>
    obtain ⟨k, v⟩ := p
    rw [List.map_cons]
    dsimp only
    by_cases hk : k = tag
    · subst hk
      rw [if_pos rfl, List.lookup_cons, List.lookup_cons]
      simp
    · rw [if_neg hk, List.lookup_cons, List.lookup_cons]
      simp [beq_false_of_ne (Ne.symm hk), ih]

theorem lookup_map_other (l : List (String × List (Handler σ π)))
    (tag tag2 : String) (h : Handler σ π) (hne : tag2 ≠ tag) :
    (l.map (fun p => if p.1 = tag then (p.1, p.2 ++ [h]) else p)).lookup tag2 =
      l.lookup tag2 := by
  induction l with
  | nil => rfl
  | cons p t ih =>
    obtain ⟨k, v⟩ := p
    rw [List.map_cons]
    dsimp only
    by_cases hk : k = tag
    · subst hk
      rw [if_pos rfl, List.lookup_cons, List.lookup_cons]
      simp [beq_false_of_ne hne, ih]
    · rw [if_neg hk, List.lookup_cons, List.lookup_cons]
      by_cases hk2 : tag2 = k
      · subst hk2
        simp
      · simp [beq_false_of_ne hk2, ih]

theorem lookup_append_right {α β : Type} [BEq α] (l l2 : List (α × β)) (a : α)
    (hnone : l.lookup a = none) : (l ++ l2).lookup a = l2.lookup a := by
  induction l with
  | nil => rfl
  | cons p t ih =>
    obtain ⟨k, v⟩ := p
    rw [List.cons_append]
    rw [List.lookup_cons] at hnone ⊢
    cases hak : (a == k) with
    | true => simp [hak] at hnone
    | false =>
      simp only [hak] at hnone ⊢
      exact ih hnone

theorem lookup_append_left {α β : Type} [BEq α] (l l2 : List (α × β)) (a : α)
    (v : β) (hsome : l.lookup a = some v) : (l ++ l2).lookup a = some v := by
  induction l with
  | nil => cases hsome
  | cons p t ih =>
    obtain ⟨k, w⟩ := p
    rw [List.cons_append]
    rw [List.lookup_cons] at hsome ⊢
    cases hak : (a == k) with
    | true => simp only [hak] at hsome ⊢; exact hsome
    | false =>
      simp only [hak] at hsome ⊢
      exact ih hsome

end EventBus

/-- Claim C5: `publish` delivers the event to exactly the handlers
registered for the event's type tag, invoking each exactly once,
sequentially in subscription order (the spec-side fold `runAllWithLog`),
and returns — with no error of its own, only a log of caught handler
errors — after every handler has run; a failing handler leaves the state to
the next handler untouched and the remaining handlers still execute.
`subscribe` appends at the end of the tag's registration list and leaves
other tags' handler lists unchanged. -/
theorem claim_C5_eventbus_publish {σ π : Type} (bus : EventBus σ π)
    (ev : BusEvent π) (s : σ) (tag : String) (h : Handler σ π) :
    EventBus.publish bus ev s =
      EventBus.runAllWithLog (EventBus.getHandlers bus ev.eventType) ev s ∧
    EventBus.getHandlers (EventBus.subscribe bus tag h) tag =
      EventBus.getHandlers bus tag ++ [h] ∧
    (∀ tag2, tag2 ≠ tag →
      EventBus.getHandlers (EventBus.subscribe bus tag h) tag2 =
        EventBus.getHandlers bus tag2) := by
  refine ⟨?_, ?_, ?_⟩
  · unfold EventBus.publish EventBus.runAllWithLog
    rw [EventBus.publishLoop_foldl]
    simp
  · unfold EventBus.subscribe EventBus.getHandlers
    cases hlk : bus.handlers.lookup tag with
    | some v =>
      rw [if_pos (by rfl)]
      rw [EventBus.lookup_map_bump bus.handlers tag h, hlk]
      simp
    | none =>
      rw [if_neg (by simp)]
      rw [EventBus.lookup_append_right bus.handlers _ tag hlk]
      simp [List.lookup]
  · intro tag2 hne
    unfold EventBus.subscribe EventBus.getHandlers
    cases hlk : bus.handlers.lookup tag with
    | some v =>
      rw [if_pos (by rfl)]
      rw [EventBus.lookup_map_other bus.handlers tag tag2 h hne]
    | none =>
      rw [if_neg (by simp)]
      cases hlk2 : bus.handlers.lookup tag2 with
      | some v2 =>
        rw [EventBus.lookup_append_left bus.handlers _ tag2 v2 hlk2]
      | none =>
        rw [EventBus.lookup_append_right bus.handlers _ tag2 hlk2]
        simp [List.lookup, beq_false_of_ne hne]

/-- Witness for C5: two handlers subscribed to BookAvailable; the first
throws, the second still runs (final state `[2]`, logged error "boom"),
and a third subscription appends in registration order while leaving the
tag "Other" untouched. -/
theorem claim_C5_eventbus_publish_witness :
    EventBus.publish
      (EventBus.subscribe
        (EventBus.subscribe (⟨[]⟩ : EventBus (List Nat) Unit) "BookAvailable"
          ⟨fun _ _ => .error "boom"⟩)
        "BookAvailable" ⟨fun _ s => .ok (s ++ [2])⟩)
      ⟨"BookAvailable", ()⟩ [] = ([2], ["boom"]) ∧
    EventBus.publish
      (EventBus.subscribe
        (EventBus.subscribe (⟨[]⟩ : EventBus (List Nat) Unit) "BookAvailable"
          ⟨fun _ _ => .error "boom"⟩)
        "BookAvailable" ⟨fun _ s => .ok (s ++ [2])⟩)
      ⟨"BookAvailable", ()⟩ [] =
      EventBus.runAllWithLog
        (EventBus.getHandlers
          (EventBus.subscribe
            (EventBus.subscribe (⟨[]⟩ : EventBus (List Nat) Unit) "BookAvailable"
              ⟨fun _ _ => .error "boom"⟩)
            "BookAvailable" ⟨fun _ s => .ok (s ++ [2])⟩)
          "BookAvailable")
        ⟨"BookAvailable", ()⟩ [] ∧
    EventBus.getHandlers
      (EventBus.subscribe
        (EventBus.subscribe
          (EventBus.subscribe (⟨[]⟩ : EventBus (List Nat) Unit) "BookAvailable"
            ⟨fun _ _ => .error "boom"⟩)
          "BookAvailable" ⟨fun _ s => .ok (s ++ [2])⟩)
        "BookAvailable" ⟨fun _ s => .ok (s ++ [3])⟩)
      "BookAvailable" =
      EventBus.getHandlers
        (EventBus.subscribe
          (EventBus.subscribe (⟨[]⟩ : EventBus (List Nat) Unit) "BookAvailable"
            ⟨fun _ _ => .error "boom"⟩)
          "BookAvailable" ⟨fun _ s => .ok (s ++ [2])⟩)
        "BookAvailable" ++ [⟨fun _ s => .ok (s ++ [3])⟩] ∧
    EventBus.getHandlers
      (EventBus.subscribe
        (EventBus.subscribe
          (EventBus.subscribe (⟨[]⟩ : EventBus (List Nat) Unit) "BookAvailable"
            ⟨fun _ _ => .error "boom"⟩)
          "BookAvailable" ⟨fun _ s => .ok (s ++ [2])⟩)
        "BookAvailable" ⟨fun _ s => .ok (s ++ [3])⟩)
      "Other" =
      EventBus.getHandlers
        (EventBus.subscribe
          (EventBus.subscribe (⟨[]⟩ : EventBus (List Nat) Unit) "BookAvailable"
            ⟨fun _ _ => .error "boom"⟩)
          "BookAvailable" ⟨fun _ s => .ok (s ++ [2])⟩)
        "Other" :=
  ⟨by rfl,
   (claim_C5_eventbus_publish
     (EventBus.subscribe
       (EventBus.subscribe (⟨[]⟩ : EventBus (List Nat) Unit) "BookAvailable"
         ⟨fun _ _ => .error "boom"⟩)
       "BookAvailable" ⟨fun _ s => .ok (s ++ [2])⟩)
     ⟨"BookAvailable", ()⟩ [] "BookAvailable" ⟨fun _ s => .ok (s ++ [3])⟩).1,
   (claim_C5_eventbus_publish
     (EventBus.subscribe
       (EventBus.subscribe (⟨[]⟩ : EventBus (List Nat) Unit) "BookAvailable"
         ⟨fun _ _ => .error "boom"⟩)
       "BookAvailable" ⟨fun _ s => .ok (s ++ [2])⟩)
     ⟨"BookAvailable", ()⟩ [] "BookAvailable" ⟨fun _ s => .ok (s ++ [3])⟩).2.1,
   (claim_C5_eventbus_publish
     (EventBus.subscribe
       (EventBus.subscribe (⟨[]⟩ : EventBus (List Nat) Unit) "BookAvailable"
         ⟨fun _ _ => .error "boom"⟩)
       "BookAvailable" ⟨fun _ s => .ok (s ++ [2])⟩)
     ⟨"BookAvailable", ()⟩ [] "BookAvailable"
     ⟨fun _ s => .ok (s ++ [3])⟩).2.2 "Other" (by decide)⟩

/-! ## Store membership lemmas for `save` -/

namespace Repo

/-- Every element of `save store r` is either `r` itself or an untouched
element of `store` whose id differs from `r`'s. -/
theorem mem_save_strong {store : Store} {r x : Reservation}
    (hx : x ∈ save store r) : x = r ∨ (x ∈ store ∧ x.id ≠ r.id) := by
  unfold save at hx
  split at hx
  · rename_i hany
    obtain ⟨z, hz, hzx⟩ := List.mem_map.mp hx
    by_cases hzid : z.id = r.id
    · rw [if_pos hzid] at hzx
      exact Or.inl hzx.symm
    · rw [if_neg hzid] at hzx
      subst hzx
      exact Or.inr ⟨hz, hzid⟩
  · rename_i hany
    rcases List.mem_append.mp hx with hmem | hmem
    · refine Or.inr ⟨hmem, ?_⟩
      intro hxe
      exact hany (List.any_eq_true.mpr ⟨x, hmem, by simp [hxe]⟩)
    · rcases List.mem_singleton.mp hmem with rfl
      exact Or.inl rfl

/-- The saved reservation is an element of the updated store. -/
theorem self_mem_save (store : Store) (r : Reservation) : r ∈ save store r := by
  unfold save
  split
  · rename_i hany
    rw [List.any_eq_true] at hany
    obtain ⟨z, hz, hzid⟩ := hany
    refine List.mem_map.mpr ⟨z, hz, ?_⟩
    rw [if_pos (by simpa using hzid)]
  · exact List.mem_append.mpr (Or.inr (List.mem_singleton.mpr rfl))

end Repo

/-! ## Duplicate prevention in reserveBook -/

namespace Queue

/-- `hasActiveFor` holds exactly when the store contains an ACTIVE or READY
reservation for the (user, book) pair. -/
theorem hasActiveFor_iff (store : Store) (u b : Nat) :
    hasActiveFor store u b = true ↔
      ∃ r ∈ store, r.userId = u ∧ r.bookId = b ∧
        (r.status = .active ∨ r.status = .ready) := by
  unfold hasActiveFor Repo.findByUserAndBook
  rw [List.any_filter]
  rw [List.any_eq_true]
  constructor
  · rintro ⟨r, hr, hp⟩
    simp at hp
    exact ⟨r, hr, hp.1.1, hp.1.2, hp.2⟩
  · rintro ⟨r, hr, h1, h2, h3⟩
    refine ⟨r, hr, ?_⟩
    simp [h1, h2, h3]

/-- `Reservation.create` never fails: the fresh ACTIVE record passes
validation. -/
theorem create_eq_ok (id u b now : Nat) :
    Reservation.create id u b now = .ok ⟨id, u, b, .active, now, none, none⟩ :=
  rfl

/-- When the user already holds an ACTIVE or READY reservation for the
book, `reserveBook` returns the AlreadyReserved failure and changes
nothing. -/
theorem reserveBook_fail (store : Store) (u b id now : Nat)
    (h : hasActiveFor store u b = true) :
    reserveBook store u b id now =
      .ok (store, [],
        ⟨false, none, some "User already has active reservation for this book"⟩) := by
  unfold reserveBook
  rw [if_pos h]

/-- When the user holds no ACTIVE or READY reservation for the book,
`reserveBook` persists a fresh ACTIVE reservation, publishes BookReserved
and returns it. -/
theorem reserveBook_succeed (store : Store) (u b id now : Nat)
    (h : hasActiveFor store u b = false) :
    reserveBook store u b id now =
      .ok (Repo.save store ⟨id, u, b, .active, now, none, none⟩,
        [.bookReserved id u b],
        ⟨true, some ⟨id, u, b, .active, now, none, none⟩, none⟩) := by
  unfold reserveBook
  rw [if_neg (by simp [h])]
  rw [create_eq_ok]

end Queue

/-- Claim C3: `reserveBook(u, b)` fails with the AlreadyReserved result iff
the store already holds a reservation for the exact (user, book) pair in
ACTIVE or READY status, leaving the store unchanged; otherwise it persists
a fresh ACTIVE reservation, publishes a BookReserved event and returns it.
Consequently reserving twice in a row succeeds then fails, while the same
user reserving a different book still succeeds. -/
theorem claim_C3_reserveBook_duplicates (store : Store) (u b id now : Nat) :
    (Queue.hasActiveFor store u b = true ↔
      ∃ r ∈ store, r.userId = u ∧ r.bookId = b ∧
        (r.status = .active ∨ r.status = .ready)) ∧
    (Queue.hasActiveFor store u b = true →
      Queue.reserveBook store u b id now =
        .ok (store, [], ⟨false, none,
          some "User already has active reservation for this book"⟩)) ∧
    (Queue.hasActiveFor store u b = false →
      Queue.reserveBook store u b id now =
        .ok (Repo.save store ⟨id, u, b, .active, now, none, none⟩,
          [.bookReserved id u b],
          ⟨true, some ⟨id, u, b, .active, now, none, none⟩, none⟩)) ∧
    (∀ id2 now2,
      Queue.reserveBook (Repo.save store ⟨id, u, b, .active, now, none, none⟩)
          u b id2 now2 =
        .ok (Repo.save store ⟨id, u, b, .active, now, none, none⟩, [],
          ⟨false, none,
            some "User already has active reservation for this book"⟩)) ∧
    (∀ b2 id2 now2, b2 ≠ b → Queue.hasActiveFor store u b2 = false →
      Queue.reserveBook (Repo.save store ⟨id, u, b, .active, now, none, none⟩)
          u b2 id2 now2 =
        .ok (Repo.save (Repo.save store ⟨id, u, b, .active, now, none, none⟩)
            ⟨id2, u, b2, .active, now2, none, none⟩,
          [.bookReserved id2 u b2],
          ⟨true, some ⟨id2, u, b2, .active, now2, none, none⟩, none⟩)) := by
  refine ⟨Queue.hasActiveFor_iff store u b,
    fun h => Queue.reserveBook_fail store u b id now h,
    fun h => Queue.reserveBook_succeed store u b id now h, ?_, ?_⟩
  · intro id2 now2
    apply Queue.reserveBook_fail
    exact (Queue.hasActiveFor_iff _ u b).mpr
      ⟨⟨id, u, b, .active, now, none, none⟩, Repo.self_mem_save _ _,
        rfl, rfl, Or.inl rfl⟩
  · intro b2 id2 now2 hne h2
    apply Queue.reserveBook_succeed
    cases hcase : Queue.hasActiveFor
        (Repo.save store ⟨id, u, b, .active, now, none, none⟩) u b2 with
    | false => rfl
    | true =>
      exfalso
      obtain ⟨r2, hmem, hu, hb, hsr⟩ := (Queue.hasActiveFor_iff _ _ _).mp hcase
      rcases Repo.mem_save_strong hmem with rfl | ⟨hmem2, -⟩
      · exact hne hb.symm
      · exact absurd ((Queue.hasActiveFor_iff store u b2).mpr
          ⟨r2, hmem2, hu, hb, hsr⟩) (by simp [h2])

/-- Witness for C3: an empty store; user 1 reserves book 2 (succeeds), a
second attempt for book 2 fails, and a reservation for book 3 succeeds. -/
theorem claim_C3_reserveBook_duplicates_witness :
    Queue.reserveBook [] 1 2 10 5 =
      .ok (Repo.save [] ⟨10, 1, 2, .active, 5, none, none⟩,
        [.bookReserved 10 1 2],
        ⟨true, some ⟨10, 1, 2, .active, 5, none, none⟩, none⟩) ∧
    Queue.reserveBook (Repo.save [] ⟨10, 1, 2, .active, 5, none, none⟩)
        1 2 11 6 =
      .ok (Repo.save [] ⟨10, 1, 2, .active, 5, none, none⟩, [],
        ⟨false, none,
          some "User already has active reservation for this book"⟩) ∧
    Queue.reserveBook (Repo.save [] ⟨10, 1, 2, .active, 5, none, none⟩)
        1 3 12 7 =
      .ok (Repo.save (Repo.save [] ⟨10, 1, 2, .active, 5, none, none⟩)
          ⟨12, 1, 3, .active, 7, none, none⟩,
        [.bookReserved 12 1 3],
        ⟨true, some ⟨12, 1, 3, .active, 7, none, none⟩, none⟩) :=
  ⟨(claim_C3_reserveBook_duplicates [] 1 2 10 5).2.2.1 rfl,
   (claim_C3_reserveBook_duplicates [] 1 2 10 5).2.2.2.1 11 6,
   (claim_C3_reserveBook_duplicates [] 1 2 10 5).2.2.2.2 3 12 7
     (by decide) rfl⟩

/-! ## Characterization of the validating constructor -/

namespace Reservation

theorem validate_eq_ok_iff (r : Reservation) :
    validate r = .ok () ↔ readyInvariant r = true := by
  unfold validate readyInvariant
  cases hra : r.readyAt <;> cases hea : r.expiresAt <;>
    by_cases hst : r.status = .ready <;>
      simp [hst, Option.any, Option.all]

theorem construct_eq_ok_iff {id u b : Nat} {st : ReservationStatus} {ca : Nat}
    {ra ea : Option Nat} {r : Reservation} :
    construct id u b st ca ra ea = .ok r ↔
      readyInvariant ⟨id, u, b, st, ca, ra, ea⟩ = true ∧
      r = ⟨id, u, b, st, ca, ra, ea⟩ := by
  unfold construct
  cases h : validate ⟨id, u, b, st, ca, ra, ea⟩ with
  | ok u0 =>
    cases u0
    have hi := (validate_eq_ok_iff _).mp h
    simp only [h]
    simp [hi, eq_comm]
  | error e =>
    have hne : ¬ readyInvariant ⟨id, u, b, st, ca, ra, ea⟩ = true := by
      intro hi
      rw [← validate_eq_ok_iff] at hi
      rw [hi] at h
      cases h
    simp only [h]
    simp [hne]

theorem construct_isOk (id u b : Nat) (st : ReservationStatus) (ca : Nat)
    (ra ea : Option Nat) :
    (construct id u b st ca ra ea).isOk =
      readyInvariant ⟨id, u, b, st, ca, ra, ea⟩ := by
  unfold construct
  cases h : validate ⟨id, u, b, st, ca, ra, ea⟩ with
  | ok u0 =>
    cases u0
    have hi := (validate_eq_ok_iff _).mp h
    simp only [h]
    simp [Except.isOk, Except.toBool, hi]
  | error e =>
    have hne : ¬ readyInvariant ⟨id, u, b, st, ca, ra, ea⟩ = true := by
      intro hi
      rw [← validate_eq_ok_iff] at hi
      rw [hi] at h
      cases h
    simp only [h]
    simp [Except.isOk, Except.toBool]
    exact (Bool.not_eq_true _).mp hne

theorem construct_ok_invariant {id u b : Nat} {st : ReservationStatus}
    {ca : Nat} {ra ea : Option Nat} {r : Reservation}
    (h : construct id u b st ca ra ea = .ok r) : r.readyInvariant = true := by
  obtain ⟨hi, rfl⟩ := construct_eq_ok_iff.mp h
  exact hi

theorem expiresAt_any_eq_false {r : Reservation} (h : r.readyInvariant = true) :
    r.expiresAt.any (fun e => e ≤ r.createdAt) = false := by
  unfold readyInvariant at h
  cases hea : r.expiresAt with
  | none => rfl
  | some e =>
    rw [hea] at h
    simp [Option.all] at h
    simp [Option.any]
    omega

end Reservation

/-! ## Entity-level claims -/

open Reservation

/-- Claim C6: every Reservation value successfully produced by `create`,
`restore`, `markAsReady`, `fulfill`, `expire` or `cancel` satisfies the
READY invariant (READY implies `readyAt` and `expiresAt` set, and a set
`expiresAt` is strictly after `createdAt`), and constructing a value that
violates either condition fails with an error. -/
theorem claim_C6_ready_invariant :
    (∀ id u b now r, Reservation.create id u b now = .ok r →
      r.readyInvariant = true) ∧
    (∀ id u b st ca ra ea r, Reservation.restore id u b st ca ra ea = .ok r →
      r.readyInvariant = true) ∧
    (∀ (r : Reservation) now r2, r.markAsReady now = .ok r2 →
      r2.readyInvariant = true) ∧
    (∀ (r : Reservation) now r2, r.fulfill now = .ok r2 →
      r2.readyInvariant = true) ∧
    (∀ (r : Reservation) r2, r.expire = .ok r2 → r2.readyInvariant = true) ∧
    (∀ (r : Reservation) r2, r.cancel = .ok r2 → r2.readyInvariant = true) ∧
    (∀ id u b st ca ra ea, (Reservation.restore id u b st ca ra ea).isOk =
      readyInvariant ⟨id, u, b, st, ca, ra, ea⟩) := by
  refine ⟨?_, ?_, ?_, ?_, ?_, ?_, ?_⟩
  · intro id u b now r h
    exact construct_ok_invariant h
  · intro id u b st ca ra ea r h
    exact construct_ok_invariant h
  · intro r now r2 h
    unfold markAsReady at h
    split at h
    · cases h
    · exact construct_ok_invariant h
  · intro r now r2 h
    unfold fulfill at h
    split at h
    · cases h
    · split at h
      · cases h
      · exact construct_ok_invariant h
  · intro r r2 h
    unfold expire at h
    split at h
    · cases h
    · exact construct_ok_invariant h
  · intro r r2 h
    unfold cancel at h
    split at h
    · cases h
    · split at h
      · cases h
      · exact construct_ok_invariant h
  · intro id u b st ca ra ea
    exact construct_isOk id u b st ca ra ea

/-- Witness for C6 at concrete inputs: a fresh reservation satisfies the
invariant, and restoring a READY record without timestamps fails. -/
theorem claim_C6_ready_invariant_witness :
    Reservation.create 1 2 3 5 = .ok ⟨1, 2, 3, .active, 5, none, none⟩ ∧
    Reservation.readyInvariant ⟨1, 2, 3, .active, 5, none, none⟩ = true ∧
    (Reservation.restore 1 2 3 .ready 5 none none).isOk =
      readyInvariant ⟨1, 2, 3, .ready, 5, none, none⟩ :=
  ⟨rfl, claim_C6_ready_invariant.1 1 2 3 5 _ rfl,
    claim_C6_ready_invariant.2.2.2.2.2.2 1 2 3 .ready 5 none none⟩

/-- Claim C7: `markAsReady` fails with the invalid-state-transition error on
every non-ACTIVE reservation; on an ACTIVE reservation (whose creation time
is not in the future) it returns a READY reservation with
`readyAt = now`, `expiresAt = now + 3 days` (`HOLD_PERIOD_DAYS`), and
identity, user, book and creation timestamp unchanged. -/
theorem claim_C7_markAsReady_contract (r : Reservation) (now : Nat) :
    (r.status ≠ .active →
      r.markAsReady now = .error "Only active reservations can be marked as ready") ∧
    (r.status = .active → r.createdAt ≤ now →
      r.markAsReady now = .ok ⟨r.id, r.userId, r.bookId, .ready, r.createdAt,
        some now, some (now + holdPeriodMs)⟩) := by
  constructor
  · intro hne
    unfold markAsReady
    rw [if_pos hne]
  · intro hact hle
    unfold markAsReady
    rw [if_neg (by simp [hact])]
    rw [construct_eq_ok_iff]
    refine ⟨?_, rfl⟩
    simp [readyInvariant, Option.all, holdPeriodMs, msPerDay, HOLD_PERIOD_DAYS]
    omega

/-- Witness for C7: a READY reservation is rejected; an ACTIVE one created
at time 5 is marked ready at time 10. -/
theorem claim_C7_markAsReady_witness :
    ((⟨1, 2, 3, .ready, 5, some 6, some 7⟩ : Reservation).status ≠ .active) ∧
    Reservation.markAsReady ⟨1, 2, 3, .ready, 5, some 6, some 7⟩ 10 =
      .error "Only active reservations can be marked as ready" ∧
    ((⟨4, 5, 6, .active, 5, none, none⟩ : Reservation).status = .active) ∧
    (5 : Nat) ≤ 10 ∧
    Reservation.markAsReady ⟨4, 5, 6, .active, 5, none, none⟩ 10 =
      .ok ⟨4, 5, 6, .ready, 5, some 10, some (10 + holdPeriodMs)⟩ :=
  ⟨by decide,
   (claim_C7_markAsReady_contract ⟨1, 2, 3, .ready, 5, some 6, some 7⟩ 10).1
     (by decide),
   rfl, by decide,
   (claim_C7_markAsReady_contract ⟨4, 5, 6, .active, 5, none, none⟩ 10).2
     rfl (by decide)⟩

/-- Claim C8: `isExpired` is true iff the status is READY, `expiresAt` is
set, and the current time strictly exceeds it; it is false for every other
status no matter how much time has passed, and false immediately after
`markAsReady` at the same current time. -/
theorem claim_C8_isExpired_semantics (r : Reservation) (now : Nat) :
    (r.isExpired now = true ↔
      r.status = .ready ∧ ∃ e, r.expiresAt = some e ∧ e < now) ∧
    (∀ r2, r.markAsReady now = .ok r2 → r2.isExpired now = false) := by
  constructor
  · unfold isExpired
    cases hst : r.status <;> cases hea : r.expiresAt <;> simp
  · intro r2 h
    unfold markAsReady at h
    split at h
    · cases h
    · obtain ⟨-, rfl⟩ := construct_eq_ok_iff.mp h
      unfold isExpired
      simp

/-- Witness for C8: a READY reservation whose window (expiry 20) has passed
at time 30 is expired, and marking an ACTIVE reservation ready at time 30
yields one not yet expired at time 30. -/
theorem claim_C8_isExpired_witness :
    (Reservation.isExpired ⟨1, 2, 3, .ready, 5, some 6, some 20⟩ 30 = true ↔
      (⟨1, 2, 3, .ready, 5, some 6, some 20⟩ : Reservation).status = .ready ∧
      ∃ e, (⟨1, 2, 3, .ready, 5, some 6, some 20⟩ : Reservation).expiresAt = some e ∧
        e < 30) ∧
    Reservation.markAsReady ⟨4, 5, 6, .active, 5, none, none⟩ 30 =
      .ok ⟨4, 5, 6, .ready, 5, some 30, some (30 + holdPeriodMs)⟩ ∧
    Reservation.isExpired ⟨4, 5, 6, .ready, 5, some 30, some (30 + holdPeriodMs)⟩ 30 =
      false :=
  ⟨(claim_C8_isExpired_semantics ⟨1, 2, 3, .ready, 5, some 6, some 20⟩ 30).1,
   by rfl,
   (claim_C8_isExpired_semantics ⟨4, 5, 6, .active, 5, none, none⟩ 30).2 _ (by rfl)⟩

/-! ## FIFO ordering of the queue -/

/-- The head of the stable ascending sort by creation timestamp is the first
element of the input with minimal `createdAt`: everything enumerated before
it is strictly later-created, and nothing anywhere is earlier-created. -/
theorem sortByCreatedAt_head :
    ∀ (l : List Reservation) (x : Reservation) (rest : List Reservation),
      Queue.sortByCreatedAt l = x :: rest →
      ∃ pre post, l = pre ++ x :: post ∧
        (∀ y ∈ pre, x.createdAt < y.createdAt) ∧
        (∀ y ∈ l, x.createdAt ≤ y.createdAt) := by
  intro l
  induction l with
  | nil =>
    intro x rest h
    simp [Queue.sortByCreatedAt, List.insertionSort] at h
  | cons a l ih =>
    intro x rest h
    rw [Queue.sortByCreatedAt, List.insertionSort] at h
    cases hs : List.insertionSort
        (fun a b : Reservation => a.createdAt ≤ b.createdAt) l with
    | nil =>
      rw [hs] at h
      simp [List.orderedInsert] at h
      obtain ⟨rfl, rfl⟩ := h
      have hl : l = [] := by
        have hp := List.perm_insertionSort
          (fun a b : Reservation => a.createdAt ≤ b.createdAt) l
        rw [hs] at hp
        exact (List.Perm.nil_eq hp).symm
      subst hl
      exact ⟨[], [], rfl, by simp, by simp⟩
    | cons m r2 =>
      rw [hs] at h
      rw [List.orderedInsert] at h
      split at h
      · rename_i hle
        obtain ⟨rfl, rfl⟩ := List.cons.inj h
        obtain ⟨pre, post, hleq, hpre, hmin⟩ := ih m r2 hs
        refine ⟨[], l, by simp, by simp, ?_⟩
        intro y hy
        rcases List.mem_cons.mp hy with hy | hy
        · subst hy; exact le_refl _
        · exact le_trans hle (hmin y hy)
      · rename_i hnle
        obtain ⟨rfl, rfl⟩ := List.cons.inj h
        obtain ⟨pre, post, hleq, hpre, hmin⟩ := ih m r2 hs
        have hlt : m.createdAt < a.createdAt := Nat.lt_of_not_le hnle
        refine ⟨a :: pre, post, by simp [hleq], ?_, ?_⟩
        · intro y hy
          rcases List.mem_cons.mp hy with hy | hy
          · subst hy; exact hlt
          · exact hpre y hy
        · intro y hy
          rcases List.mem_cons.mp hy with hy | hy
          · subst hy; exact Nat.le_of_lt hlt
          · exact hmin y hy

/-- Claim C2: `getNextInQueue(bookId)` returns none exactly when the book
has no ACTIVE reservation; otherwise it returns the ACTIVE reservation for
that book with the smallest creation timestamp, ties broken by the store's
stable enumeration order (every reservation enumerated before the returned
one was created strictly later) — so for distinct creation times t1 < t2 <
t3 it returns the one created at t1 regardless of insertion order. -/
theorem claim_C2_getNextInQueue_fifo (store : Store) (bookId : Nat) :
    (Queue.getNextInQueue store bookId = none ↔
      Repo.findActiveByBook store bookId = []) ∧
    (∀ r, Queue.getNextInQueue store bookId = some r →
      ∃ pre post, Repo.findActiveByBook store bookId = pre ++ r :: post ∧
        (∀ y ∈ pre, r.createdAt < y.createdAt) ∧
        (∀ y ∈ Repo.findActiveByBook store bookId,
          r.createdAt ≤ y.createdAt)) := by
  constructor
  · cases hact : Repo.findActiveByBook store bookId with
    | nil => simp [Queue.getNextInQueue, hact]
    | cons a t =>
      simp only [Queue.getNextInQueue, hact, List.isEmpty_cons, if_neg]
      simp only [Bool.false_eq_true, if_false]
      constructor
      · intro hnone
        rw [List.head?_eq_none_iff] at hnone
        have hp := List.perm_insertionSort
          (fun a b : Reservation => a.createdAt ≤ b.createdAt) (a :: t)
        rw [Queue.sortByCreatedAt] at hnone
        rw [hnone] at hp
        cases (List.Perm.nil_eq hp)
      · intro hcon
        cases hcon
  · intro r h
    unfold Queue.getNextInQueue at h
    cases hact : Repo.findActiveByBook store bookId with
    | nil =>
      rw [hact] at h
      simp at h
    | cons a t =>
      rw [hact] at h
      simp only [List.isEmpty_cons, Bool.false_eq_true, if_false] at h
      cases hs : Queue.sortByCreatedAt (a :: t) with
      | nil => rw [hs] at h; cases h
      | cons x rest =>
        rw [hs] at h
        simp only [List.head?_cons, Option.some.injEq] at h
        subst h
        exact sortByCreatedAt_head (a :: t) x rest hs

/-- Witness for C2: with two ACTIVE reservations for book 7 inserted in
reverse creation order, `getNextInQueue` returns the earlier-created one. -/
theorem claim_C2_getNextInQueue_fifo_witness :
    Queue.getNextInQueue
      [⟨2, 5, 7, .active, 20, none, none⟩, ⟨1, 4, 7, .active, 10, none, none⟩]
      7 = some ⟨1, 4, 7, .active, 10, none, none⟩ ∧
    (∃ pre post,
      Repo.findActiveByBook
        [⟨2, 5, 7, .active, 20, none, none⟩, ⟨1, 4, 7, .active, 10, none, none⟩]
        7 = pre ++ ⟨1, 4, 7, .active, 10, none, none⟩ :: post ∧
      (∀ y ∈ pre,
        (⟨1, 4, 7, .active, 10, none, none⟩ : Reservation).createdAt <
          y.createdAt) ∧
      (∀ y ∈ Repo.findActiveByBook
          [⟨2, 5, 7, .active, 20, none, none⟩,
           ⟨1, 4, 7, .active, 10, none, none⟩] 7,
        (⟨1, 4, 7, .active, 10, none, none⟩ : Reservation).createdAt ≤
          y.createdAt)) :=
  ⟨by rfl,
   (claim_C2_getNextInQueue_fifo
     [⟨2, 5, 7, .active, 20, none, none⟩, ⟨1, 4, 7, .active, 10, none, none⟩]
     7).2 ⟨1, 4, 7, .active, 10, none, none⟩ (by rfl)⟩

/-- Counterexample to claim C9 as stated: `cancel()` on an
already-CANCELLED reservation succeeds (producing the same CANCELLED
snapshot), so a successful cancel does not only occur from ACTIVE or READY
status. -/
theorem claim_C9_counterexample :
    Reservation.cancel ⟨1, 2, 3, .cancelled, 10, none, none⟩ =
      .ok ⟨1, 2, 3, .cancelled, 10, none, none⟩ ∧
    (⟨1, 2, 3, .cancelled, 10, none, none⟩ : Reservation).status ≠ .active ∧
    (⟨1, 2, 3, .cancelled, 10, none, none⟩ : Reservation).status ≠ .ready :=
  ⟨rfl, by decide, by decide⟩

/-- Claim C9 (amended): entity-level `cancel()` fails (raising
InvalidStateTransition) iff the status is FULFILLED or EXPIRED; otherwise
it succeeds with a CANCELLED snapshot — which includes cancelling an
already-CANCELLED reservation, not only ACTIVE or READY.  The
ACTIVE/READY-only guarantee holds one level up: a successful
`CancelReservationUseCase.execute` only happens when the stored reservation
was ACTIVE or READY (the use case separately rejects already-cancelled
reservations). -/
theorem claim_C9_cancel_contract :
    (∀ r : Reservation, r.readyInvariant = true →
      ((∃ e, r.cancel = .error e) ↔
        (r.status = .fulfilled ∨ r.status = .expired)) ∧
      (∀ r2, r.cancel = .ok r2 →
        r2 = ⟨r.id, r.userId, r.bookId, .cancelled, r.createdAt, r.readyAt,
          r.expiresAt⟩ ∧
        (r.status = .active ∨ r.status = .ready ∨ r.status = .cancelled))) ∧
    (∀ (store : Store) (rid now : Nat) store2 evs out,
      CancelUseCase.execute store rid now = .ok (store2, evs, out) →
      out.success = true →
      ∃ r0, Repo.findById store rid = some r0 ∧
        (r0.status = .active ∨ r0.status = .ready)) := by
  constructor
  · intro r hinv
    have hany := expiresAt_any_eq_false hinv
    constructor
    · unfold cancel
      cases hst : r.status <;>
        simp [hst, construct, validate, hany]
    · intro r2 h
      unfold cancel at h
      split at h
      · cases h
      · split at h
        · cases h
        · obtain ⟨-, rfl⟩ := construct_eq_ok_iff.mp h
          refine ⟨rfl, ?_⟩
          cases hst : r.status <;> simp_all
  · intro store rid now store2 evs out h hsucc
    unfold CancelUseCase.execute at h
    cases hfind : Repo.findById store rid with
    | none =>
      rw [hfind] at h
      simp at h
      obtain ⟨-, -, rfl⟩ := h
      cases hsucc
    | some r0 =>
      rw [hfind] at h
      refine ⟨r0, rfl, ?_⟩
      cases hst : r0.status with
      | active => exact Or.inl rfl
      | ready => exact Or.inr rfl
      | fulfilled =>
        simp [hst] at h
        obtain ⟨-, -, rfl⟩ := h
        cases hsucc
      | expired =>
        simp [hst] at h
        obtain ⟨-, -, rfl⟩ := h
        cases hsucc
      | cancelled =>
        simp [hst] at h
        obtain ⟨-, -, rfl⟩ := h
        cases hsucc

/-- Witness for C9 (amended): cancelling an ACTIVE reservation yields the
CANCELLED snapshot, and a successful use-case cancellation happened on an
ACTIVE stored reservation. -/
theorem claim_C9_cancel_contract_witness :
    Reservation.readyInvariant ⟨1, 2, 3, .active, 10, none, none⟩ = true ∧
    ((⟨1, 2, 3, .cancelled, 10, none, none⟩ : Reservation) =
      ⟨1, 2, 3, .cancelled, 10, none, none⟩ ∧
      ((⟨1, 2, 3, .active, 10, none, none⟩ : Reservation).status = .active ∨
       (⟨1, 2, 3, .active, 10, none, none⟩ : Reservation).status = .ready ∨
       (⟨1, 2, 3, .active, 10, none, none⟩ : Reservation).status = .cancelled)) ∧
    (∃ r0, Repo.findById [⟨1, 2, 3, .active, 10, none, none⟩] 1 = some r0 ∧
      (r0.status = .active ∨ r0.status = .ready)) :=
  ⟨by decide,
   (claim_C9_cancel_contract.1 ⟨1, 2, 3, .active, 10, none, none⟩ (by decide)).2
     ⟨1, 2, 3, .cancelled, 10, none, none⟩ (by rfl),
   claim_C9_cancel_contract.2 [⟨1, 2, 3, .active, 10, none, none⟩] 1 99 _ _ _
     (by rfl) (by rfl)⟩

/-- Claim C10 (frame): `fulfill`, `expire` and `cancel` change only the
status field, preserving identity, user, book, creation, ready and
expiration timestamps; `markAsReady` changes only status, `readyAt` and
`expiresAt`, preserving identity, user, book and creation timestamp. -/
theorem claim_C10_transition_frame (r : Reservation) (now : Nat)
    (r2 : Reservation) :
    (r.fulfill now = .ok r2 →
      r2.id = r.id ∧ r2.userId = r.userId ∧ r2.bookId = r.bookId ∧
      r2.createdAt = r.createdAt ∧ r2.readyAt = r.readyAt ∧
      r2.expiresAt = r.expiresAt ∧ r2.status = .fulfilled) ∧
    (r.expire = .ok r2 →
      r2.id = r.id ∧ r2.userId = r.userId ∧ r2.bookId = r.bookId ∧
      r2.createdAt = r.createdAt ∧ r2.readyAt = r.readyAt ∧
      r2.expiresAt = r.expiresAt ∧ r2.status = .expired) ∧
    (r.cancel = .ok r2 →
      r2.id = r.id ∧ r2.userId = r.userId ∧ r2.bookId = r.bookId ∧
      r2.createdAt = r.createdAt ∧ r2.readyAt = r.readyAt ∧
      r2.expiresAt = r.expiresAt ∧ r2.status = .cancelled) ∧
    (r.markAsReady now = .ok r2 →
      r2.id = r.id ∧ r2.userId = r.userId ∧ r2.bookId = r.bookId ∧
      r2.createdAt = r.createdAt ∧ r2.status = .ready) := by
  refine ⟨?_, ?_, ?_, ?_⟩
  · intro h
    unfold fulfill at h
    split at h
    · cases h
    · split at h
      · cases h
      · obtain ⟨-, rfl⟩ := construct_eq_ok_iff.mp h
        exact ⟨rfl, rfl, rfl, rfl, rfl, rfl, rfl⟩
  · intro h
    unfold expire at h
    split at h
    · cases h
    · obtain ⟨-, rfl⟩ := construct_eq_ok_iff.mp h
      exact ⟨rfl, rfl, rfl, rfl, rfl, rfl, rfl⟩
  · intro h
    unfold cancel at h
    split at h
    · cases h
    · split at h
      · cases h
      · obtain ⟨-, rfl⟩ := construct_eq_ok_iff.mp h
        exact ⟨rfl, rfl, rfl, rfl, rfl, rfl, rfl⟩
  · intro h
    unfold markAsReady at h
    split at h
    · cases h
    · obtain ⟨-, rfl⟩ := construct_eq_ok_iff.mp h
      exact ⟨rfl, rfl, rfl, rfl, rfl⟩

/-- Witness for C10: expiring a concrete READY reservation only changes its
status. -/
theorem claim_C10_transition_frame_witness :
    Reservation.expire ⟨1, 2, 3, .ready, 5, some 6, some 20⟩ =
      .ok ⟨1, 2, 3, .expired, 5, some 6, some 20⟩ ∧
    ((⟨1, 2, 3, .expired, 5, some 6, some 20⟩ : Reservation).id =
      (⟨1, 2, 3, .ready, 5, some 6, some 20⟩ : Reservation).id ∧
     (⟨1, 2, 3, .expired, 5, some 6, some 20⟩ : Reservation).userId =
      (⟨1, 2, 3, .ready, 5, some 6, some 20⟩ : Reservation).userId ∧
     (⟨1, 2, 3, .expired, 5, some 6, some 20⟩ : Reservation).bookId =
      (⟨1, 2, 3, .ready, 5, some 6, some 20⟩ : Reservation).bookId ∧
     (⟨1, 2, 3, .expired, 5, some 6, some 20⟩ : Reservation).createdAt =
      (⟨1, 2, 3, .ready, 5, some 6, some 20⟩ : Reservation).createdAt ∧
     (⟨1, 2, 3, .expired, 5, some 6, some 20⟩ : Reservation).readyAt =
      (⟨1, 2, 3, .ready, 5, some 6, some 20⟩ : Reservation).readyAt ∧
     (⟨1, 2, 3, .expired, 5, some 6, some 20⟩ : Reservation).expiresAt =
      (⟨1, 2, 3, .ready, 5, some 6, some 20⟩ : Reservation).expiresAt ∧
     (⟨1, 2, 3, .expired, 5, some 6, some 20⟩ : Reservation).status = .expired) :=
  ⟨by rfl,
   (claim_C10_transition_frame ⟨1, 2, 3, .ready, 5, some 6, some 20⟩ 0
     ⟨1, 2, 3, .expired, 5, some 6, some 20⟩).2.1 (by rfl)⟩


/-! ## Idempotence of the expiration sweep -/

theorem expire_ok_eq {r r2 : Reservation} (h : r.expire = .ok r2) :
    r.status = .ready ∧
    r2 = ⟨r.id, r.userId, r.bookId, .expired, r.createdAt, r.readyAt,
      r.expiresAt⟩ := by
  unfold Reservation.expire at h
  split at h
  · cases h
  · rename_i hcond
    obtain ⟨-, rfl⟩ := construct_eq_ok_iff.mp h
    exact ⟨not_not.mp hcond, rfl⟩

theorem markAsReady_ok_eq {r : Reservation} {now : Nat} {r2 : Reservation}
    (h : r.markAsReady now = .ok r2) :
    r.status = .active ∧
    r2 = ⟨r.id, r.userId, r.bookId, .ready, r.createdAt, some now,
      some (now + holdPeriodMs)⟩ := by
  unfold Reservation.markAsReady at h
  split at h
  · cases h
  · rename_i hcond
    obtain ⟨-, rfl⟩ := construct_eq_ok_iff.mp h
    exact ⟨not_not.mp hcond, rfl⟩

theorem isExpired_status {r : Reservation} {now : Nat}
    (h : r.isExpired now = true) : r.status = .ready := by
  unfold Reservation.isExpired at h
  cases hst : r.status <;> cases hea : r.expiresAt <;> rw [hst, hea] at h <;>
    first
      | exact hst
      | simp at h

/-- A freshly promoted reservation is not yet expired: its window ends
`holdPeriodMs` after `now`. -/
theorem promoted_not_expired {r r2 : Reservation} {now : Nat}
    (h : r.markAsReady now = .ok r2) : r2.isExpired now = false := by
  obtain ⟨-, rfl⟩ := markAsReady_ok_eq h
  unfold Reservation.isExpired
  simp

/-- Every element of the store `notifyNextInQueue` produces is either not
expired at `now` (the promoted head, if any) or an element of the input
store. -/
theorem mem_notifyNext {store store2 : Store} {bookId now : Nat}
    {evs : List DomainEvent}
    (h : Queue.notifyNextInQueue store bookId now = .ok (store2, evs)) :
    ∀ x ∈ store2, x.isExpired now = false ∨ x ∈ store := by
  unfold Queue.notifyNextInQueue at h
  cases hnext : Queue.getNextInQueue store bookId with
  | none =>
    rw [hnext] at h
    dsimp only at h
    injection h with h1
    injection h1 with h2 h3
    subst h2
    exact fun x hx => Or.inr hx
  | some next =>
    rw [hnext] at h
    dsimp only at h
    cases hmr : next.markAsReady now with
    | error e => rw [hmr] at h; cases h
    | ok ready =>
      rw [hmr] at h
      dsimp only at h
      injection h with h1
      injection h1 with h2 h3
      subst h2
      intro x hx
      rcases Repo.mem_save_strong hx with rfl | ⟨hx0, -⟩
      · exact Or.inl (promoted_not_expired hmr)
      · exact Or.inr hx0

/-- Invariant of the sweep loop: if every reservation in the store is
either not expired or still waiting in the snapshot suffix, then after the
loop finishes successfully no reservation in the resulting store is
expired. -/
theorem processLoop_all_not_expired (now : Nat) :
    ∀ (todo : List Reservation) (store : Store) (evs : List DomainEvent)
      (cnt : Nat) (res : Store × List DomainEvent × Nat),
      Queue.processExpiredLoop now todo (store, evs, cnt) = .ok res →
      (∀ x ∈ store, x.isExpired now = false ∨ x ∈ todo) →
      ∀ x ∈ res.1, x.isExpired now = false := by
  intro todo
  induction todo with
  | nil =>
    intro store evs cnt res h hinv x hx
    unfold Queue.processExpiredLoop at h
    cases h
    rcases hinv x hx with hok | hmem
    · exact hok
    · cases hmem
  | cons r rest ih =>
    intro store evs cnt res h hinv
    unfold Queue.processExpiredLoop at h
    by_cases hex : r.isExpired now = true
    · rw [if_pos hex] at h
      cases hexp : r.expire with
      | error e => rw [hexp] at h; cases h
      | ok expired =>
        rw [hexp] at h
        dsimp only at h
        cases hnot : Queue.notifyNextInQueue (Repo.save store expired)
            r.bookId now with
        | error e => rw [hnot] at h; cases h
        | ok p =>
          obtain ⟨store2, evs2⟩ := p
          rw [hnot] at h
          dsimp only at h
          apply ih store2 _ _ res h
          intro x hx2
          rcases mem_notifyNext hnot x hx2 with hok | hx1
          · exact Or.inl hok
          · rcases Repo.mem_save_strong hx1 with rfl | ⟨hx0, hid⟩
            · obtain ⟨hrst, rfl⟩ := expire_ok_eq hexp
              exact Or.inl rfl
            · rcases hinv x hx0 with hok | hmem
              · exact Or.inl hok
              · rcases List.mem_cons.mp hmem with rfl | hmem2
                · obtain ⟨hrst, hexpeq⟩ := expire_ok_eq hexp
                  exact absurd (by rw [hexpeq]) hid
                · exact Or.inr hmem2
    · rw [if_neg hex] at h
      apply ih store evs cnt res h
      intro x hx
      rcases hinv x hx with hok | hmem
      · exact Or.inl hok
      · rcases List.mem_cons.mp hmem with rfl | hmem2
        · exact Or.inl ((Bool.not_eq_true _).mp hex)
        · exact Or.inr hmem2

/-- A sweep over a snapshot none of whose entries is expired changes
nothing and counts nothing. -/
theorem processLoop_skip (now : Nat) :
    ∀ (todo : List Reservation) (store : Store) (evs : List DomainEvent)
      (cnt : Nat),
      (∀ r ∈ todo, r.isExpired now = false) →
      Queue.processExpiredLoop now todo (store, evs, cnt) =
        .ok (store, evs, cnt) := by
  intro todo
  induction todo with
  | nil =>
    intro store evs cnt hall
    rfl
  | cons r rest ih =>
    intro store evs cnt hall
    unfold Queue.processExpiredLoop
    rw [if_neg (by simp [hall r (List.mem_cons_self r rest)])]
    exact ih store evs cnt fun q hq => hall q (List.mem_cons_of_mem r hq)

/-- Claim C4: the expiration sweep is idempotent — whatever store it is run
on, a successful sweep leaves a store in which a second sweep at the same
current time finds nothing to expire: it returns count 0, publishes no
event, and leaves the store unchanged (reservations promoted by the first
sweep's cascade carry a fresh `now + 3 days` window that is not yet past). -/
theorem claim_C4_sweep_idempotent (store : Store) (now : Nat) (s1 : Store)
    (evs : List DomainEvent) (n : Nat)
    (h : Queue.processExpiredReservations store now = .ok (s1, evs, n)) :
    Queue.processExpiredReservations s1 now = .ok (s1, [], 0) := by
  have hall : ∀ x ∈ s1, x.isExpired now = false := by
    apply processLoop_all_not_expired now (Repo.findByStatus store .ready)
      store [] 0 (s1, evs, n) h
    intro x hx
    by_cases hex : x.isExpired now = true
    · right
      refine List.mem_filter.mpr ⟨hx, ?_⟩
      simp [isExpired_status hex]
    · left
      exact (Bool.not_eq_true _).mp hex
  unfold Queue.processExpiredReservations
  apply processLoop_skip
  intro r hr
  exact hall r (List.mem_filter.mp hr).1

/-- Witness for C4: a READY reservation past its window plus an ACTIVE
successor; the first sweep expires one and promotes the other, the second
sweep expires nothing. -/
theorem claim_C4_sweep_idempotent_witness :
    Queue.processExpiredReservations
      [⟨1, 4, 7, .ready, 5, some 6, some 10⟩,
       ⟨2, 5, 7, .active, 6, none, none⟩] 20 =
      .ok ([⟨1, 4, 7, .expired, 5, some 6, some 10⟩,
            ⟨2, 5, 7, .ready, 6, some 20, some (20 + holdPeriodMs)⟩],
           [.reservationExpired 1 4 7,
            .reservationReady 2 5 7 (20 + holdPeriodMs)], 1) ∧
    Queue.processExpiredReservations
      [⟨1, 4, 7, .expired, 5, some 6, some 10⟩,
       ⟨2, 5, 7, .ready, 6, some 20, some (20 + holdPeriodMs)⟩] 20 =
      .ok ([⟨1, 4, 7, .expired, 5, some 6, some 10⟩,
            ⟨2, 5, 7, .ready, 6, some 20, some (20 + holdPeriodMs)⟩], [], 0) :=
  ⟨by rfl,
   claim_C4_sweep_idempotent
     [⟨1, 4, 7, .ready, 5, some 6, some 10⟩, ⟨2, 5, 7, .active, 6, none, none⟩]
     20
     [⟨1, 4, 7, .expired, 5, some 6, some 10⟩,
      ⟨2, 5, 7, .ready, 6, some 20, some (20 + holdPeriodMs)⟩]
     [.reservationExpired 1 4 7, .reservationReady 2 5 7 (20 + holdPeriodMs)]
     1 (by rfl)⟩


/-! ## Cascade correctness of the expiration sweep -/

theorem perm_pair_cases {α : Type} {l : List α} {a b : α}
    (h : l.Perm [a, b]) : l = [a, b] ∨ l = [b, a] := by
  obtain ⟨x, y, rfl⟩ := List.length_eq_two.mp h.length_eq
  have hx : x = a ∨ x = b := by
    have := h.mem_iff.mp (List.mem_cons_self x [y])
    simpa using this
  rcases hx with rfl | rfl
  · left
    have h2 := (List.perm_cons x).mp h
    rw [List.perm_singleton.mp h2]
  · right
    have h3 : List.Perm [x, y] [x, a] := h.trans (List.Perm.swap x a [])
    have h2 := (List.perm_cons x).mp h3
    rw [List.perm_singleton.mp h2]

theorem find?_eq_some_of_unique {α : Type} {l : List α} {p : α → Bool}
    {x : α} (hmem : x ∈ l) (hpx : p x = true)
    (huniq : ∀ y ∈ l, p y = true → y = x) : l.find? p = some x := by
  induction l with
  | nil => cases hmem
  | cons a t ih =>
    by_cases hpa : p a = true
    · have hax : a = x := huniq a (List.mem_cons_self a t) hpa
      subst hax
      rw [List.find?_cons_of_pos _ hpa]
    · rw [List.find?_cons_of_neg _ (by simpa using hpa)]
      apply ih
      · rcases List.mem_cons.mp hmem with rfl | h2
        · exact absurd hpx hpa
        · exact h2
      · exact fun y hy hpy => huniq y (List.mem_cons_of_mem a hy) hpy

/-- `save` on a store that is a permutation of `l`, keyed by an id already
present, is a permutation of `l` with every entry of that id replaced. -/
theorem save_perm_of_mem {store : Store} {l : List Reservation}
    {r x : Reservation} (hperm : store.Perm l) (hx : x ∈ store)
    (hid : x.id = r.id) :
    (Repo.save store r).Perm (l.map (fun y => if y.id = r.id then r else y)) := by
  unfold Repo.save
  rw [if_pos (List.any_eq_true.mpr ⟨x, hx, by simp [hid]⟩)]
  exact hperm.map _

/-- Claim C1: on a store holding exactly three reservations for the same
book — A READY and past its window, B and C ACTIVE, created at strictly
increasing times t1 < t2 < t3 — the sweep expires A, promotes B (the
earliest remaining ACTIVE reservation) to READY via `notifyNextInQueue`,
and leaves C ACTIVE, publishing exactly the ReservationExpired and
ReservationReady events and returning count 1. -/
theorem claim_C1_cascade (store : Store)
    (iA iB iC uA uB uC b t1 t2 t3 ra eA now : Nat)
    (hAB : iA ≠ iB) (hAC : iA ≠ iC) (hBC : iB ≠ iC)
    (h12 : t1 < t2) (h23 : t2 < t3)
    (heA : t1 < eA) (hpast : eA < now) (ht2 : t2 ≤ now)
    (hperm : store.Perm
      [⟨iA, uA, b, .ready, t1, some ra, some eA⟩,
       ⟨iB, uB, b, .active, t2, none, none⟩,
       ⟨iC, uC, b, .active, t3, none, none⟩]) :
    Queue.processExpiredReservations store now =
      .ok (Repo.save (Repo.save store ⟨iA, uA, b, .expired, t1, some ra, some eA⟩)
             ⟨iB, uB, b, .ready, t2, some now, some (now + holdPeriodMs)⟩,
           [.reservationExpired iA uA b,
            .reservationReady iB uB b (now + holdPeriodMs)], 1) ∧
    Repo.findById
        (Repo.save (Repo.save store ⟨iA, uA, b, .expired, t1, some ra, some eA⟩)
          ⟨iB, uB, b, .ready, t2, some now, some (now + holdPeriodMs)⟩) iA =
      some ⟨iA, uA, b, .expired, t1, some ra, some eA⟩ ∧
    Repo.findById
        (Repo.save (Repo.save store ⟨iA, uA, b, .expired, t1, some ra, some eA⟩)
          ⟨iB, uB, b, .ready, t2, some now, some (now + holdPeriodMs)⟩) iB =
      some ⟨iB, uB, b, .ready, t2, some now, some (now + holdPeriodMs)⟩ ∧
    Repo.findById
        (Repo.save (Repo.save store ⟨iA, uA, b, .expired, t1, some ra, some eA⟩)
          ⟨iB, uB, b, .ready, t2, some now, some (now + holdPeriodMs)⟩) iC =
      some ⟨iC, uC, b, .active, t3, none, none⟩ := by
  -- abbreviations by name only, records spelled out where needed
  -- Step 1: the READY snapshot is exactly [A].
  have hsnap : Repo.findByStatus store .ready =
      [⟨iA, uA, b, .ready, t1, some ra, some eA⟩] := by
    apply List.perm_singleton.mp
    have hp := hperm.filter (fun r => decide (r.status = .ready))
    unfold Repo.findByStatus
    have hfil : List.filter (fun r => decide (r.status = .ready))
        [(⟨iA, uA, b, .ready, t1, some ra, some eA⟩ : Reservation),
         ⟨iB, uB, b, .active, t2, none, none⟩,
         ⟨iC, uC, b, .active, t3, none, none⟩] =
        [⟨iA, uA, b, .ready, t1, some ra, some eA⟩] := by rfl
    rw [hfil] at hp
    exact hp
  -- Step 2: expiring A succeeds.
  have hexpA : Reservation.expire ⟨iA, uA, b, .ready, t1, some ra, some eA⟩ =
      .ok ⟨iA, uA, b, .expired, t1, some ra, some eA⟩ := by
    unfold Reservation.expire
    rw [if_neg (by simp)]
    exact construct_eq_ok_iff.mpr
      ⟨by simp [Reservation.readyInvariant, Option.all, heA], rfl⟩
  -- Step 3: the store after saving expired A is a permutation of [A', B, C].
  have hmemA : (⟨iA, uA, b, .ready, t1, some ra, some eA⟩ : Reservation) ∈
      store := hperm.mem_iff.mpr (List.mem_cons_self _ _)
  have hsave1 : (Repo.save store
      ⟨iA, uA, b, .expired, t1, some ra, some eA⟩).Perm
      [⟨iA, uA, b, .expired, t1, some ra, some eA⟩,
       ⟨iB, uB, b, .active, t2, none, none⟩,
       ⟨iC, uC, b, .active, t3, none, none⟩] := by
    have hmap := save_perm_of_mem (r := ⟨iA, uA, b, .expired, t1, some ra, some eA⟩)
      hperm hmemA rfl
    have hm : List.map (fun y : Reservation =>
        if y.id = (⟨iA, uA, b, .expired, t1, some ra, some eA⟩ : Reservation).id
        then ⟨iA, uA, b, .expired, t1, some ra, some eA⟩ else y)
        [(⟨iA, uA, b, .ready, t1, some ra, some eA⟩ : Reservation),
         ⟨iB, uB, b, .active, t2, none, none⟩,
         ⟨iC, uC, b, .active, t3, none, none⟩] =
        [⟨iA, uA, b, .expired, t1, some ra, some eA⟩,
         ⟨iB, uB, b, .active, t2, none, none⟩,
         ⟨iC, uC, b, .active, t3, none, none⟩] := by
      simp [Ne.symm hAB, Ne.symm hAC]
    rw [hm] at hmap
    exact hmap
  -- Step 4: the ACTIVE queue for the book after A expires is {B, C}.
  have hactp : (Repo.findActiveByBook (Repo.save store
      ⟨iA, uA, b, .expired, t1, some ra, some eA⟩) b).Perm
      [⟨iB, uB, b, .active, t2, none, none⟩,
       ⟨iC, uC, b, .active, t3, none, none⟩] := by
    unfold Repo.findActiveByBook
    have hp := hsave1.filter
      (fun r : Reservation => decide (r.bookId = b) && decide (r.status = .active))
    have hfil : List.filter
        (fun r : Reservation => decide (r.bookId = b) && decide (r.status = .active))
        [(⟨iA, uA, b, .expired, t1, some ra, some eA⟩ : Reservation),
         ⟨iB, uB, b, .active, t2, none, none⟩,
         ⟨iC, uC, b, .active, t3, none, none⟩] =
        [⟨iB, uB, b, .active, t2, none, none⟩,
         ⟨iC, uC, b, .active, t3, none, none⟩] := by
      simp
    rw [hfil] at hp
    exact hp
  -- Step 5: the next in queue is B in either enumeration order.
  have hnext : Queue.getNextInQueue (Repo.save store
      ⟨iA, uA, b, .expired, t1, some ra, some eA⟩) b =
      some ⟨iB, uB, b, .active, t2, none, none⟩ := by
    rcases perm_pair_cases hactp with hact | hact <;>
      unfold Queue.getNextInQueue <;> rw [hact] <;> dsimp only <;>
      simp only [List.isEmpty_cons, Bool.false_eq_true, if_false]
    · have hsort : Queue.sortByCreatedAt
          [(⟨iB, uB, b, .active, t2, none, none⟩ : Reservation),
           ⟨iC, uC, b, .active, t3, none, none⟩] =
          [⟨iB, uB, b, .active, t2, none, none⟩,
           ⟨iC, uC, b, .active, t3, none, none⟩] := by
        unfold Queue.sortByCreatedAt
        rw [List.insertionSort, List.insertionSort, List.insertionSort]
        rw [List.orderedInsert, List.orderedInsert]
        rw [if_pos (le_of_lt h23)]
      rw [hsort]
      rfl
    · have hsort : Queue.sortByCreatedAt
          [(⟨iC, uC, b, .active, t3, none, none⟩ : Reservation),
           ⟨iB, uB, b, .active, t2, none, none⟩] =
          [⟨iB, uB, b, .active, t2, none, none⟩,
           ⟨iC, uC, b, .active, t3, none, none⟩] := by
        unfold Queue.sortByCreatedAt
        rw [List.insertionSort, List.insertionSort, List.insertionSort]
        rw [List.orderedInsert, List.orderedInsert]
        rw [if_neg (not_le.mpr h23)]
        rfl
      rw [hsort]
      rfl
  -- Step 6: promoting B succeeds.
  have hreadyB : Reservation.markAsReady ⟨iB, uB, b, .active, t2, none, none⟩
      now = .ok ⟨iB, uB, b, .ready, t2, some now, some (now + holdPeriodMs)⟩ := by
    unfold Reservation.markAsReady
    rw [if_neg (by simp)]
    refine construct_eq_ok_iff.mpr ⟨?_, rfl⟩
    simp [Reservation.readyInvariant, Option.all, holdPeriodMs, msPerDay,
      HOLD_PERIOD_DAYS]
    omega
  -- Step 7: assemble the run of the sweep.
  have hnotify : Queue.notifyNextInQueue (Repo.save store
      ⟨iA, uA, b, .expired, t1, some ra, some eA⟩) b now =
      .ok (Repo.save (Repo.save store
            ⟨iA, uA, b, .expired, t1, some ra, some eA⟩)
          ⟨iB, uB, b, .ready, t2, some now, some (now + holdPeriodMs)⟩,
        [.reservationReady iB uB b (now + holdPeriodMs)]) := by
    unfold Queue.notifyNextInQueue
    rw [hnext]
    dsimp only
    rw [hreadyB]
    rfl
  have hAexp : Reservation.isExpired
      ⟨iA, uA, b, .ready, t1, some ra, some eA⟩ now = true := by
    simp [Reservation.isExpired]
    omega
  have hrun : Queue.processExpiredReservations store now =
      .ok (Repo.save (Repo.save store
            ⟨iA, uA, b, .expired, t1, some ra, some eA⟩)
          ⟨iB, uB, b, .ready, t2, some now, some (now + holdPeriodMs)⟩,
        [.reservationExpired iA uA b,
         .reservationReady iB uB b (now + holdPeriodMs)], 1) := by
    unfold Queue.processExpiredReservations
    rw [hsnap]
    unfold Queue.processExpiredLoop
    rw [if_pos hAexp, hexpA]
    dsimp only
    rw [hnotify]
    dsimp only
    simp only [Queue.processExpiredLoop]
    rfl
  -- Step 8: the final store is a permutation of [A', B', C].
  have hmemB : (⟨iB, uB, b, .active, t2, none, none⟩ : Reservation) ∈
      Repo.save store ⟨iA, uA, b, .expired, t1, some ra, some eA⟩ :=
    hsave1.mem_iff.mpr (by simp)
  have hsave2 : (Repo.save (Repo.save store
      ⟨iA, uA, b, .expired, t1, some ra, some eA⟩)
      ⟨iB, uB, b, .ready, t2, some now, some (now + holdPeriodMs)⟩).Perm
      [⟨iA, uA, b, .expired, t1, some ra, some eA⟩,
       ⟨iB, uB, b, .ready, t2, some now, some (now + holdPeriodMs)⟩,
       ⟨iC, uC, b, .active, t3, none, none⟩] := by
    have hmap := save_perm_of_mem
      (r := ⟨iB, uB, b, .ready, t2, some now, some (now + holdPeriodMs)⟩)
      hsave1 hmemB rfl
    have hm : List.map (fun y : Reservation =>
        if y.id = (⟨iB, uB, b, .ready, t2, some now,
            some (now + holdPeriodMs)⟩ : Reservation).id
        then ⟨iB, uB, b, .ready, t2, some now, some (now + holdPeriodMs)⟩
        else y)
        [(⟨iA, uA, b, .expired, t1, some ra, some eA⟩ : Reservation),
         ⟨iB, uB, b, .active, t2, none, none⟩,
         ⟨iC, uC, b, .active, t3, none, none⟩] =
        [⟨iA, uA, b, .expired, t1, some ra, some eA⟩,
         ⟨iB, uB, b, .ready, t2, some now, some (now + holdPeriodMs)⟩,
         ⟨iC, uC, b, .active, t3, none, none⟩] := by
      simp [hAB, Ne.symm hBC]
    rw [hm] at hmap
    exact hmap
  -- Step 9: lookups in the final store.
  refine ⟨hrun, ?_, ?_, ?_⟩
  · unfold Repo.findById
    apply find?_eq_some_of_unique (hsave2.mem_iff.mpr (by simp)) (by simp)
    intro y hy hpy
    have hy3 := hsave2.mem_iff.mp hy
    simp at hpy
    rcases List.mem_cons.mp hy3 with rfl | hy3
    · rfl
    · rcases List.mem_cons.mp hy3 with rfl | hy4
      · exact absurd hpy (Ne.symm hAB)
      · rcases List.mem_cons.mp hy4 with rfl | hy5
        · exact absurd hpy (Ne.symm hAC)
        · cases hy5
  · unfold Repo.findById
    apply find?_eq_some_of_unique
      (hsave2.mem_iff.mpr (by simp)) (by simp)
    intro y hy hpy
    have hy3 := hsave2.mem_iff.mp hy
    simp at hpy
    rcases List.mem_cons.mp hy3 with rfl | hy3
    · exact absurd hpy hAB
    · rcases List.mem_cons.mp hy3 with rfl | hy4
      · rfl
      · rcases List.mem_cons.mp hy4 with rfl | hy5
        · exact absurd hpy (Ne.symm hBC)
        · cases hy5
  · unfold Repo.findById
    apply find?_eq_some_of_unique
      (hsave2.mem_iff.mpr (by simp)) (by simp)
    intro y hy hpy
    have hy3 := hsave2.mem_iff.mp hy
    simp at hpy
    rcases List.mem_cons.mp hy3 with rfl | hy3
    · exact absurd hpy hAC
    · rcases List.mem_cons.mp hy3 with rfl | hy4
      · exact absurd hpy hBC
      · rcases List.mem_cons.mp hy4 with rfl | hy5
        · rfl
        · cases hy5


/-- Witness for C1: three concrete reservations for book 7 — A (id 1,
READY, window ended at 100), B (id 2, ACTIVE, created 20), C (id 3,
ACTIVE, created 30) — swept at time 200. -/
theorem claim_C1_cascade_witness :
    Queue.processExpiredReservations
      [⟨1, 4, 7, .ready, 10, some 15, some 100⟩,
       ⟨2, 5, 7, .active, 20, none, none⟩,
       ⟨3, 6, 7, .active, 30, none, none⟩] 200 =
      .ok (Repo.save (Repo.save
            [⟨1, 4, 7, .ready, 10, some 15, some 100⟩,
             ⟨2, 5, 7, .active, 20, none, none⟩,
             ⟨3, 6, 7, .active, 30, none, none⟩]
            ⟨1, 4, 7, .expired, 10, some 15, some 100⟩)
          ⟨2, 5, 7, .ready, 20, some 200, some (200 + holdPeriodMs)⟩,
        [.reservationExpired 1 4 7,
         .reservationReady 2 5 7 (200 + holdPeriodMs)], 1) ∧
    Repo.findById
        (Repo.save (Repo.save
            [⟨1, 4, 7, .ready, 10, some 15, some 100⟩,
             ⟨2, 5, 7, .active, 20, none, none⟩,
             ⟨3, 6, 7, .active, 30, none, none⟩]
            ⟨1, 4, 7, .expired, 10, some 15, some 100⟩)
          ⟨2, 5, 7, .ready, 20, some 200, some (200 + holdPeriodMs)⟩) 1 =
      some ⟨1, 4, 7, .expired, 10, some 15, some 100⟩ ∧
    Repo.findById
        (Repo.save (Repo.save
            [⟨1, 4, 7, .ready, 10, some 15, some 100⟩,
             ⟨2, 5, 7, .active, 20, none, none⟩,
             ⟨3, 6, 7, .active, 30, none, none⟩]
            ⟨1, 4, 7, .expired, 10, some 15, some 100⟩)
          ⟨2, 5, 7, .ready, 20, some 200, some (200 + holdPeriodMs)⟩) 2 =
      some ⟨2, 5, 7, .ready, 20, some 200, some (200 + holdPeriodMs)⟩ ∧
    Repo.findById
        (Repo.save (Repo.save
            [⟨1, 4, 7, .ready, 10, some 15, some 100⟩,
             ⟨2, 5, 7, .active, 20, none, none⟩,
             ⟨3, 6, 7, .active, 30, none, none⟩]
            ⟨1, 4, 7, .expired, 10, some 15, some 100⟩)
          ⟨2, 5, 7, .ready, 20, some 200, some (200 + holdPeriodMs)⟩) 3 =
      some ⟨3, 6, 7, .active, 30, none, none⟩ :=
  claim_C1_cascade
    [⟨1, 4, 7, .ready, 10, some 15, some 100⟩,
     ⟨2, 5, 7, .active, 20, none, none⟩,
     ⟨3, 6, 7, .active, 30, none, none⟩]
    1 2 3 4 5 6 7 10 20 30 15 100 200
    (by decide) (by decide) (by decide) (by decide) (by decide) (by decide)
    (by decide) (by decide) (List.Perm.refl _)

end LibRes
